import Mathlib

/-!
Verification of the task-manager front end's non-visual logic: task
categorization and filtering (DashboardPage/MyTasksPage), filter-tile
clicks, task creation with attachment uploads, chat-thread loading and
read-marking (EmployeesPage), team-roster assembly, and the error path of
the data-fetch operations (loadTasks / loadMessages / loadEvents).

Dates: the source calls `new Date(s)` on a due-date string and truncates
both it and `new Date()` to midnight via `setHours(0,0,0,0)`. We embed a
midnight-truncated JavaScript date as `Option Int` — `some d` for a valid
date whose time value (after truncation) is `d`, `none` for an invalid
date (time value NaN). JavaScript `<` on Date coerces to the numeric time
value, and any comparison with NaN is false; `getTime() === getTime()`
with NaN on either side is likewise false.
-/

namespace TaskManager

/-- The three due-date buckets returned by `getCategoryFromDate`. -/
inductive Category
  | overdue
  | today
  | next
deriving DecidableEq, Repr

/-- The `activeFilter` state of DashboardPage / MyTasksPage:
`'all' | 'today' | 'next' | 'overdue'`. -/
inductive Filter
  | all
  | today
  | next
  | overdue
deriving DecidableEq, Repr

/-- The filter value a category's tile selects (the category strings are a
subset of the filter strings in the source). -/
def Category.toFilter : Category → Filter
  | Category.overdue => Filter.overdue
  | Category.today => Filter.today
  | Category.next => Filter.next

/-- JavaScript `<` on two Date values (any comparison with NaN is false). -/
def jsDateLt : Option Int → Option Int → Bool
  | some a, some b => decide (a < b)
  | _, _ => false

/-- JavaScript `getTime() === getTime()` (false when either side is NaN). -/
def jsDateEqTime : Option Int → Option Int → Bool
  | some a, some b => a == b
  | _, _ => false

/-- `getCategoryFromDate` (DashboardPage.tsx:248-257, MyTasksPage.tsx:58-67):
`if (due < today) return 'overdue'; if (due.getTime() === today.getTime())
return 'today'; return 'next';` where `due` is the parsed, midnight-truncated
due date and `today` the midnight-truncated current date (always valid). -/
def getCategoryFromDate (due : Option Int) (today : Int) : Category :=
  if jsDateLt due (some today) then Category.overdue
  else if jsDateEqTime due (some today) then Category.today
  else Category.next

/-- Civil date (year, month, day) to a day count with epoch 1970-01-01,
used to write concrete calendar dates in scenarios. Valid for year ≥ 1. -/
def daysFromCivil (y m d : Nat) : Int :=
  let yAdj := if m ≤ 2 then y - 1 else y
  let era := yAdj / 400
  let yoe := yAdj % 400
  let mp := (m + 9) % 12
  let doy := (153 * mp + 2) / 5 + d - 1
  let doe := yoe * 365 + yoe / 4 - yoe / 100 + doy
  (((era * 146097 + doe : Nat)) : Int) - 719468

/-- The `Task` interface of DashboardPage/MyTasksPage. `due_date` is kept as
its parsed, midnight-truncated value (`none` when the string fails to parse). -/
structure Task where
  id : String
  title : String
  description : String
  assigned_to : String
  priority : String
  due_date : Option Int
  status : String
  created_at : String
deriving DecidableEq, Repr

/-- `filterTasks` (DashboardPage.tsx:259-262, MyTasksPage.tsx:69-72):
`if (activeFilter === 'all') return tasks;
return tasks.filter(task => getCategoryFromDate(task.due_date) === activeFilter);` -/
def filterTasks (activeFilter : Filter) (today : Int) (tasks : List Task) : List Task :=
  if activeFilter = Filter.all then tasks
  else tasks.filter (fun task => (getCategoryFromDate task.due_date today).toFilter = activeFilter)

/-- A filter tile's click handler (DashboardPage.tsx:363-385,
MyTasksPage.tsx:151-183): `onClick={() => setActiveFilter('today')}` (resp.
`'next'`, `'overdue'`) — the new filter is the tile's constant category,
independent of the current filter. -/
def clickTile (_current : Filter) (tile : Category) : Filter :=
  tile.toFilter

/-- The "Show all tasks" button's click handler (DashboardPage.tsx:502-509,
MyTasksPage.tsx:176-183): `onClick={() => setActiveFilter('all')}`. -/
def clickShowAll (_current : Filter) : Filter :=
  Filter.all

/-- C1: for valid midnight-truncated dates the categorization is a
trichotomy — exactly `overdue` when due < today, exactly `today` when they
are equal, exactly `next` when due > today — and on the concrete scenario
(now = 2025-01-02) a task due 2025-01-01 is `overdue`, one due 2025-01-02 is
`today`, and one due 2025-01-03 is `next`. -/
theorem c1_category_trichotomy :
    (∀ d t : Int,
      (getCategoryFromDate (some d) t = Category.overdue ↔ d < t)
      ∧ (getCategoryFromDate (some d) t = Category.today ↔ d = t)
      ∧ (getCategoryFromDate (some d) t = Category.next ↔ t < d))
    ∧ getCategoryFromDate (some (daysFromCivil 2025 1 1)) (daysFromCivil 2025 1 2)
        = Category.overdue
    ∧ getCategoryFromDate (some (daysFromCivil 2025 1 2)) (daysFromCivil 2025 1 2)
        = Category.today
    ∧ getCategoryFromDate (some (daysFromCivil 2025 1 3)) (daysFromCivil 2025 1 2)
        = Category.next := by
  refine ⟨fun d t => ?_, by decide, by decide, by decide⟩
  simp only [getCategoryFromDate, jsDateLt, jsDateEqTime, beq_iff_eq]
  by_cases h1 : d < t <;> by_cases h2 : d = t <;>
    simp [h1, h2] <;> omega

/-- C2: with an active filter among today/next/overdue, `filterTasks` keeps
exactly the tasks whose categorization matches the filter; with filter `all`
it returns the task list unchanged. -/
theorem c2_filter_exact (tasks : List Task) (now : Int) (f : Filter)
    (hf : f ≠ Filter.all) :
    (∀ t, t ∈ filterTasks f now tasks ↔
      t ∈ tasks ∧ (getCategoryFromDate t.due_date now).toFilter = f)
    ∧ filterTasks Filter.all now tasks = tasks := by
  constructor
  · intro t
    simp [filterTasks, hf, List.mem_filter]
  · simp [filterTasks]

/-- Witness for C2 at a concrete task list and the `today` filter. -/
theorem c2_filter_exact_witness :
    Filter.today ≠ Filter.all
    ∧ ((∀ t, t ∈ filterTasks Filter.today 7
          [⟨"t1", "a", "", "u1", "Low", some 7, "Not Started", "c"⟩,
           ⟨"t2", "b", "", "u1", "Low", some 9, "Not Started", "c"⟩] ↔
        t ∈ [⟨"t1", "a", "", "u1", "Low", some 7, "Not Started", "c"⟩,
             ⟨"t2", "b", "", "u1", "Low", some 9, "Not Started", "c"⟩]
        ∧ (getCategoryFromDate t.due_date 7).toFilter = Filter.today)
      ∧ filterTasks Filter.all 7
          [⟨"t1", "a", "", "u1", "Low", some 7, "Not Started", "c"⟩,
           ⟨"t2", "b", "", "u1", "Low", some 9, "Not Started", "c"⟩]
        = [⟨"t1", "a", "", "u1", "Low", some 7, "Not Started", "c"⟩,
           ⟨"t2", "b", "", "u1", "Low", some 9, "Not Started", "c"⟩]) :=
  ⟨by decide, c2_filter_exact _ 7 Filter.today (by decide)⟩

/-- C3 counterexample: with the `today` filter already active, clicking the
`today` tile again runs `setActiveFilter('today')`, leaving the filter at
`today` — it does not clear it to `all`. -/
theorem c3_reselect_counterexample :
    ¬ (clickTile Filter.today Category.today = Filter.all) := by
  decide

/-- C3 (amended): clicking a tile unconditionally sets the filter to that
tile's category — re-selecting the active tile leaves the filter unchanged
rather than clearing it — and only the explicit "show all" action resets the
filter to `all`. -/
theorem c3_tile_click_sets_filter (current : Filter) (tile : Category) :
    clickTile current tile = tile.toFilter
    ∧ clickShowAll current = Filter.all :=
  ⟨rfl, rfl⟩

/-! ### Task creation with attachments (`handleAddTask`, DashboardPage.tsx:190-246) -/

/-- The `newTask` form state of DashboardPage. -/
structure NewTaskForm where
  title : String
  description : String
  dueDate : String
  assignedTo : String
  priority : String
deriving DecidableEq, Repr

/-- A staged attachment's file (`attachment.file`): name, MIME type, size. -/
structure StagedFile where
  name : String
  mime : String
  size : Nat
deriving DecidableEq, Repr

/-- The row passed to `supabase.from('tasks').insert(...)`. -/
structure TaskInsertRow where
  title : String
  description : String
  assigned_to : String
  created_by : String
  priority : String
  due_date : String
  status : String
deriving DecidableEq, Repr

/-- The row passed to `supabase.from('task_attachments').insert(...)`. -/
structure AttachmentInsertRow where
  task_id : String
  file_name : String
  file_url : String
  file_type : String
  file_size : Nat
  uploaded_by : String
deriving DecidableEq, Repr

/-- A backend write issued during task creation. `taskDelete` is in the
vocabulary (the app has task deletion elsewhere) but `handleAddTask` never
issues one — that is the no-rollback property. -/
inductive BackendWrite
  | taskInsert (row : TaskInsertRow)
  | storageUpload (path : String)
  | attachmentInsert (row : AttachmentInsertRow)
  | taskDelete (taskId : String)
deriving DecidableEq, Repr

/-- `attachment.file.name.split('.').pop()` — the final dot-separated
component of the file name (JavaScript `split` never yields an empty array). -/
def fileExt (name : String) : String :=
  (name.splitOn ".").getLastD ""

/-- The environment a run of `handleAddTask` observes: the authenticated
user, the result of the task insert, and per-upload-index the success of the
storage upload, the `Math.random()` file-name stem, and the public URL the
storage service issues for a path. -/
structure UploadEnv where
  user : Option String
  insertResult : Except String String
  uploadOk : Nat → Bool
  randName : Nat → String
  publicUrl : String → String

/-- The `for (const attachment of attachments)` loop (DashboardPage.tsx:216-241),
with `i` the index of the current attachment in the staged list: build the
path `task-attachments/{taskId}/{rand}.{ext}`, attempt the upload, and only
when the upload succeeded insert a `task_attachments` row; then continue with
the remaining attachments regardless. -/
def uploadLoop (env : UploadEnv) (taskId userId : String) :
    Nat → List StagedFile → List BackendWrite
  | _, [] => []
  | i, f :: rest =>
    let fileName := env.randName i ++ "." ++ fileExt f.name
    let filePath := "task-attachments/" ++ taskId ++ "/" ++ fileName
    (BackendWrite.storageUpload filePath ::
      (if env.uploadOk i then
        [BackendWrite.attachmentInsert
          { task_id := taskId, file_name := f.name,
            file_url := env.publicUrl filePath, file_type := f.mime,
            file_size := f.size, uploaded_by := userId }]
      else []))
    ++ uploadLoop env taskId userId (i + 1) rest

/-- Observable outcome of `handleAddTask`: the backend writes issued, in
order, and the number of `console.error` diagnostics (the handler surfaces no
user-facing error in any branch). -/
structure AddTaskOutcome where
  writes : List BackendWrite
  consoleErrors : Nat
deriving DecidableEq, Repr

/-- `handleAddTask` (DashboardPage.tsx:190-246): return immediately when
title, due date or assignee is empty (`!newTask.title || !newTask.dueDate ||
!newTask.assignedTo`) or no user is authenticated; otherwise insert the task;
on insert error log and stop; on success run the upload loop when attachments
are staged. -/
def handleAddTask (form : NewTaskForm) (attachments : List StagedFile)
    (env : UploadEnv) : AddTaskOutcome :=
  if form.title = "" ∨ form.dueDate = "" ∨ form.assignedTo = "" then ⟨[], 0⟩
  else
    match env.user with
    | none => ⟨[], 0⟩
    | some userId =>
      let row : TaskInsertRow :=
        { title := form.title, description := form.description,
          assigned_to := form.assignedTo, created_by := userId,
          priority := form.priority, due_date := form.dueDate,
          status := "Not Started" }
      match env.insertResult with
      | Except.error _ => ⟨[BackendWrite.taskInsert row], 1⟩
      | Except.ok taskId =>
        ⟨BackendWrite.taskInsert row ::
          (if 0 < attachments.length then uploadLoop env taskId userId 0 attachments
           else []),
         0⟩

/-- The storage-upload paths occurring in a write trace, in order. -/
def uploadPathsOf (ws : List BackendWrite) : List String :=
  ws.filterMap (fun w =>
    match w with
    | BackendWrite.storageUpload p => some p
    | _ => none)

/-- The `task_attachments` rows inserted in a write trace, in order. -/
def attachmentInsertsOf (ws : List BackendWrite) : List AttachmentInsertRow :=
  ws.filterMap (fun w =>
    match w with
    | BackendWrite.attachmentInsert r => some r
    | _ => none)

/-- Whether a write is a task deletion. -/
def isTaskDelete : BackendWrite → Bool
  | BackendWrite.taskDelete _ => true
  | _ => false

/-- C4: when the title, due date or assignee is empty, `handleAddTask`
issues no backend write at all and logs no error. -/
theorem c4_missing_field_no_write (form : NewTaskForm)
    (attachments : List StagedFile) (env : UploadEnv)
    (h : form.title = "" ∨ form.dueDate = "" ∨ form.assignedTo = "") :
    (handleAddTask form attachments env).writes = []
    ∧ (handleAddTask form attachments env).consoleErrors = 0 := by
  unfold handleAddTask
  rw [if_pos h]
  exact ⟨rfl, rfl⟩

/-- Witness for C4: a form with an empty title, one staged attachment, and a
fully cooperative backend still produce no write. -/
theorem c4_missing_field_no_write_witness :
    ((⟨"", "d", "2025-01-02", "u2", "High"⟩ : NewTaskForm).title = ""
      ∨ (⟨"", "d", "2025-01-02", "u2", "High"⟩ : NewTaskForm).dueDate = ""
      ∨ (⟨"", "d", "2025-01-02", "u2", "High"⟩ : NewTaskForm).assignedTo = "")
    ∧ ((handleAddTask ⟨"", "d", "2025-01-02", "u2", "High"⟩
          [⟨"a.png", "image/png", 3⟩]
          ⟨some "u1", Except.ok "task1", fun _ => true, fun _ => "r",
            fun p => p⟩).writes = []
      ∧ (handleAddTask ⟨"", "d", "2025-01-02", "u2", "High"⟩
          [⟨"a.png", "image/png", 3⟩]
          ⟨some "u1", Except.ok "task1", fun _ => true, fun _ => "r",
            fun p => p⟩).consoleErrors = 0) :=
  ⟨Or.inl rfl,
   c4_missing_field_no_write ⟨"", "d", "2025-01-02", "u2", "High"⟩
     [⟨"a.png", "image/png", 3⟩]
     ⟨some "u1", Except.ok "task1", fun _ => true, fun _ => "r", fun p => p⟩
     (Or.inl rfl)⟩

/-- The per-task storage path of the upload with index `i` for file `f`. -/
def uploadPathAt (env : UploadEnv) (taskId : String) (i : Nat) (f : StagedFile) :
    String :=
  "task-attachments/" ++ taskId ++ "/" ++ (env.randName i ++ "." ++ fileExt f.name)

@[simp]
lemma uploadPathsOf_nil : uploadPathsOf [] = [] := rfl

@[simp]
lemma uploadPathsOf_cons_taskInsert (r : TaskInsertRow) (ws : List BackendWrite) :
    uploadPathsOf (BackendWrite.taskInsert r :: ws) = uploadPathsOf ws := rfl

@[simp]
lemma uploadPathsOf_cons_upload (p : String) (ws : List BackendWrite) :
    uploadPathsOf (BackendWrite.storageUpload p :: ws) = p :: uploadPathsOf ws := rfl

@[simp]
lemma uploadPathsOf_cons_attach (r : AttachmentInsertRow) (ws : List BackendWrite) :
    uploadPathsOf (BackendWrite.attachmentInsert r :: ws) = uploadPathsOf ws := rfl

@[simp]
lemma uploadPathsOf_append (a b : List BackendWrite) :
    uploadPathsOf (a ++ b) = uploadPathsOf a ++ uploadPathsOf b :=
  List.filterMap_append a b _

@[simp]
lemma attachmentInsertsOf_nil : attachmentInsertsOf [] = [] := rfl

@[simp]
lemma attachmentInsertsOf_cons_taskInsert (r : TaskInsertRow)
    (ws : List BackendWrite) :
    attachmentInsertsOf (BackendWrite.taskInsert r :: ws) = attachmentInsertsOf ws :=
  rfl

@[simp]
lemma attachmentInsertsOf_cons_upload (p : String) (ws : List BackendWrite) :
    attachmentInsertsOf (BackendWrite.storageUpload p :: ws) =
      attachmentInsertsOf ws := rfl

@[simp]
lemma attachmentInsertsOf_cons_attach (r : AttachmentInsertRow)
    (ws : List BackendWrite) :
    attachmentInsertsOf (BackendWrite.attachmentInsert r :: ws) =
      r :: attachmentInsertsOf ws := rfl

@[simp]
lemma attachmentInsertsOf_append (a b : List BackendWrite) :
    attachmentInsertsOf (a ++ b) =
      attachmentInsertsOf a ++ attachmentInsertsOf b :=
  List.filterMap_append a b _

/-- The upload loop attempts, in list order, exactly one storage upload per
staged file, at the per-task path with the randomized stem and the file's
original extension — independent of which uploads succeed. -/
lemma uploadLoop_paths (env : UploadEnv) (taskId userId : String)
    (files : List StagedFile) : ∀ i,
    uploadPathsOf (uploadLoop env taskId userId i files) =
      (List.enumFrom i files).map (fun p => uploadPathAt env taskId p.1 p.2) := by
  induction files with
  | nil => intro i; rfl
  | cons f rest ih =>
    intro i
    by_cases h : env.uploadOk i <;>
      simp [uploadLoop, uploadPathAt, h, ih (i + 1), List.enumFrom]

/-- The `task_attachments` row the loop inserts for the upload with index
`i` of file `f`. -/
def attachmentRowAt (env : UploadEnv) (taskId userId : String) (i : Nat)
    (f : StagedFile) : AttachmentInsertRow :=
  { task_id := taskId, file_name := f.name,
    file_url := env.publicUrl (uploadPathAt env taskId i f),
    file_type := f.mime, file_size := f.size, uploaded_by := userId }

/-- The upload loop inserts an attachment row for exactly the files whose
upload succeeded, in list order. -/
lemma uploadLoop_inserts (env : UploadEnv) (taskId userId : String)
    (files : List StagedFile) : ∀ i,
    attachmentInsertsOf (uploadLoop env taskId userId i files) =
      ((List.enumFrom i files).filter (fun p => env.uploadOk p.1)).map
        (fun p => attachmentRowAt env taskId userId p.1 p.2) := by
  induction files with
  | nil => intro i; rfl
  | cons f rest ih =>
    intro i
    by_cases h : env.uploadOk i <;>
      simp [uploadLoop, attachmentRowAt, uploadPathAt, h, ih (i + 1),
        List.enumFrom, List.filter_cons]

/-- The upload loop never issues a task deletion. -/
lemma uploadLoop_no_delete (env : UploadEnv) (taskId userId : String)
    (files : List StagedFile) : ∀ i,
    ∀ w ∈ uploadLoop env taskId userId i files, isTaskDelete w = false := by
  induction files with
  | nil => intro i w hw; cases hw
  | cons f rest ih =>
    intro i w hw
    simp only [uploadLoop, List.mem_append, List.mem_cons] at hw
    rcases hw with (rfl | hw) | hw
    · rfl
    · by_cases h : env.uploadOk i <;> simp [h] at hw
      cases hw
      rfl
    · exact ih (i + 1) w hw

/-- C5: after a successful task insert with a non-empty staged list, the
handler issues, in list order, one storage upload per staged attachment at
`task-attachments/{taskId}/{random}.{original extension}` (a failed upload
does not stop the later ones); it inserts a `task_attachments` row exactly
for the attachments whose upload succeeded; and it never deletes the created
task. -/
theorem c5_upload_sequence (form : NewTaskForm) (atts : List StagedFile)
    (env : UploadEnv) (userId taskId : String)
    (ht : form.title ≠ "") (hd : form.dueDate ≠ "") (ha : form.assignedTo ≠ "")
    (hu : env.user = some userId) (hi : env.insertResult = Except.ok taskId)
    (hne : atts ≠ []) :
    uploadPathsOf (handleAddTask form atts env).writes =
      atts.enum.map (fun p => uploadPathAt env taskId p.1 p.2)
    ∧ attachmentInsertsOf (handleAddTask form atts env).writes =
        (atts.enum.filter (fun p => env.uploadOk p.1)).map
          (fun p => attachmentRowAt env taskId userId p.1 p.2)
    ∧ ∀ w ∈ (handleAddTask form atts env).writes, isTaskDelete w = false := by
  have hcond : ¬ (form.title = "" ∨ form.dueDate = "" ∨ form.assignedTo = "") := by
    rintro (h | h | h)
    exacts [ht h, hd h, ha h]
  have hlen : 0 < atts.length := List.length_pos.mpr hne
  have hws : (handleAddTask form atts env).writes =
      BackendWrite.taskInsert
        { title := form.title, description := form.description,
          assigned_to := form.assignedTo, created_by := userId,
          priority := form.priority, due_date := form.dueDate,
          status := "Not Started" } :: uploadLoop env taskId userId 0 atts := by
    unfold handleAddTask
    rw [if_neg hcond, hu, hi]
    simp [if_pos hlen]
  rw [hws]
  refine ⟨?_, ?_, ?_⟩
  · simpa [List.enum] using uploadLoop_paths env taskId userId atts 0
  · simpa [List.enum] using uploadLoop_inserts env taskId userId atts 0
  · intro w hw
    simp only [List.mem_cons] at hw
    rcases hw with rfl | hw
    · rfl
    · exact uploadLoop_no_delete env taskId userId atts 0 w hw

/-- Witness for C5: two staged files, the first upload failing and the
second succeeding — both uploads are attempted, only the second row is
inserted, the task is never deleted. -/
theorem c5_upload_sequence_witness :
    ("t" : String) ≠ ""
    ∧ ("2025-01-02" : String) ≠ ""
    ∧ ("u2" : String) ≠ ""
    ∧ (uploadPathsOf (handleAddTask ⟨"t", "d", "2025-01-02", "u2", "High"⟩
          [⟨"a.png", "image/png", 3⟩, ⟨"b.tar.gz", "application/gzip", 5⟩]
          ⟨some "u1", Except.ok "task1", fun i => i == 1, fun i => Nat.repr i,
            fun p => "url/" ++ p⟩).writes =
        ([⟨"a.png", "image/png", 3⟩,
          ⟨"b.tar.gz", "application/gzip", 5⟩] : List StagedFile).enum.map
          (fun p => uploadPathAt
            ⟨some "u1", Except.ok "task1", fun i => i == 1, fun i => Nat.repr i,
              fun p => "url/" ++ p⟩ "task1" p.1 p.2)
      ∧ attachmentInsertsOf (handleAddTask ⟨"t", "d", "2025-01-02", "u2", "High"⟩
          [⟨"a.png", "image/png", 3⟩, ⟨"b.tar.gz", "application/gzip", 5⟩]
          ⟨some "u1", Except.ok "task1", fun i => i == 1, fun i => Nat.repr i,
            fun p => "url/" ++ p⟩).writes =
        (([⟨"a.png", "image/png", 3⟩,
           ⟨"b.tar.gz", "application/gzip", 5⟩] : List StagedFile).enum.filter
            (fun p => (fun i => i == 1 : Nat → Bool) p.1)).map
          (fun p => attachmentRowAt
            ⟨some "u1", Except.ok "task1", fun i => i == 1, fun i => Nat.repr i,
              fun p => "url/" ++ p⟩ "task1" "u1" p.1 p.2)
      ∧ ∀ w ∈ (handleAddTask ⟨"t", "d", "2025-01-02", "u2", "High"⟩
          [⟨"a.png", "image/png", 3⟩, ⟨"b.tar.gz", "application/gzip", 5⟩]
          ⟨some "u1", Except.ok "task1", fun i => i == 1, fun i => Nat.repr i,
            fun p => "url/" ++ p⟩).writes, isTaskDelete w = false) :=
  ⟨by decide, by decide, by decide,
   c5_upload_sequence ⟨"t", "d", "2025-01-02", "u2", "High"⟩
     [⟨"a.png", "image/png", 3⟩, ⟨"b.tar.gz", "application/gzip", 5⟩]
     ⟨some "u1", Except.ok "task1", fun i => i == 1, fun i => Nat.repr i,
       fun p => "url/" ++ p⟩ "u1" "task1"
     (by decide) (by decide) (by decide) rfl rfl (by decide)⟩

/-! ### Chat (`loadMessages`, EmployeesPage) -/

/-- The `ChatMessage` interface of EmployeesPage. `created_at` is embedded
as a timestamp. -/
structure ChatMessage where
  id : String
  sender_id : String
  receiver_id : String
  message : String
  has_attachment : Bool
  attachment_url : Option String
  attachment_name : Option String
  is_read : Bool
  created_at : Int
deriving DecidableEq, Repr

/-- The `.or(and(sender_id.eq.A,receiver_id.eq.B),and(sender_id.eq.B,
receiver_id.eq.A))` row predicate of the `loadMessages` query (EmployeesPage,
with A the current user and B the other user). -/
def threadPred (me other : String) (m : ChatMessage) : Bool :=
  (m.sender_id == me && m.receiver_id == other)
    || (m.sender_id == other && m.receiver_id == me)

/-- The `order('created_at', { ascending: true })` comparison. -/
def byCreated (a b : ChatMessage) : Prop :=
  a.created_at ≤ b.created_at

instance : DecidableRel byCreated := fun a b =>
  inferInstanceAs (Decidable (a.created_at ≤ b.created_at))

instance : IsTotal ChatMessage byCreated :=
  ⟨fun a b => le_total a.created_at b.created_at⟩

instance : IsTrans ChatMessage byCreated :=
  ⟨fun _ _ _ hab hbc => le_trans hab hbc⟩

/-- The backend's evaluation of the `loadMessages` select: keep the rows of
the `chat_messages` store satisfying the thread predicate and order them by
`created_at` ascending. -/
def loadMessagesQuery (store : List ChatMessage) (me other : String) :
    List ChatMessage :=
  List.insertionSort byCreated (store.filter (threadPred me other))

/-- The read-marking update issued after a successful `loadMessages` fetch:
`update({ is_read: true }).eq('receiver_id', me).eq('sender_id', other)
.eq('is_read', false)` applied to the message store. -/
def markRead (viewer other : String) (store : List ChatMessage) :
    List ChatMessage :=
  store.map (fun m =>
    if m.receiver_id == viewer && m.sender_id == other && m.is_read == false
    then { m with is_read := true } else m)

/-- C6: the loaded thread between A and B holds exactly the stored messages
whose (sender, receiver) pair is (A,B) or (B,A) — all of them and nothing
else — ordered by creation timestamp non-decreasing. -/
theorem c6_thread_exact (store : List ChatMessage) (A B : String) :
    (∀ m, m ∈ loadMessagesQuery store A B ↔
      m ∈ store ∧ ((m.sender_id = A ∧ m.receiver_id = B)
        ∨ (m.sender_id = B ∧ m.receiver_id = A)))
    ∧ List.Sorted byCreated (loadMessagesQuery store A B) := by
  constructor
  · intro m
    simp [loadMessagesQuery, List.mem_filter, threadPred]
  · exact List.sorted_insertionSort byCreated _

/-- C7: loading a thread as `viewer` against `other` flips `is_read` to true
on exactly the stored messages that are addressed to the viewer from the
other user and still unread; every other message — in particular every
message the viewer sent — is returned unchanged, and no field other than
`is_read` changes on any message. -/
theorem c7_mark_read_frame (viewer other : String) (hne : viewer ≠ other)
    (store : List ChatMessage) :
    List.Forall₂ (fun m m' =>
        (m.receiver_id = viewer → m.sender_id = other → m.is_read = false →
          m' = { m with is_read := true })
        ∧ (¬ (m.receiver_id = viewer ∧ m.sender_id = other ∧ m.is_read = false) →
          m' = m)
        ∧ (m.sender_id = viewer → m' = m)
        ∧ m'.id = m.id ∧ m'.sender_id = m.sender_id
        ∧ m'.receiver_id = m.receiver_id ∧ m'.message = m.message
        ∧ m'.has_attachment = m.has_attachment
        ∧ m'.attachment_url = m.attachment_url
        ∧ m'.attachment_name = m.attachment_name
        ∧ m'.created_at = m.created_at)
      store (markRead viewer other store) := by
  unfold markRead
  rw [List.forall₂_map_right_iff, List.forall₂_same]
  intro m _
  by_cases h : m.receiver_id == viewer && m.sender_id == other && m.is_read == false
  · rw [if_pos h]
    simp only [Bool.and_eq_true, beq_iff_eq, beq_false] at h
    obtain ⟨⟨hr, hs⟩, hread⟩ := h
    refine ⟨fun _ _ _ => rfl, fun hc => absurd ⟨hr, hs, by simpa using hread⟩ hc,
      fun hsv => absurd (hsv ▸ hs : viewer = other) hne, ?_⟩
    simp
  · rw [if_neg h]
    simp only [Bool.and_eq_true, beq_iff_eq, beq_false, not_and] at h
    refine ⟨?_, fun _ => rfl, fun _ => rfl, rfl, rfl, rfl, rfl, rfl, rfl, rfl, rfl⟩
    intro hr hs hread
    exact absurd (by simpa using hread) (h ⟨hr, hs⟩)

/-- Witness for C7: a single unread message from "b" to "a", viewed by "a". -/
theorem c7_mark_read_frame_witness :
    ("a" : String) ≠ "b"
    ∧ List.Forall₂ (fun m m' =>
        (m.receiver_id = "a" → m.sender_id = "b" → m.is_read = false →
          m' = { m with is_read := true })
        ∧ (¬ (m.receiver_id = "a" ∧ m.sender_id = "b" ∧ m.is_read = false) →
          m' = m)
        ∧ (m.sender_id = "a" → m' = m)
        ∧ m'.id = m.id ∧ m'.sender_id = m.sender_id
        ∧ m'.receiver_id = m.receiver_id ∧ m'.message = m.message
        ∧ m'.has_attachment = m.has_attachment
        ∧ m'.attachment_url = m.attachment_url
        ∧ m'.attachment_name = m.attachment_name
        ∧ m'.created_at = m.created_at)
      [⟨"m1", "b", "a", "hi", false, none, none, false, 5⟩]
      (markRead "a" "b" [⟨"m1", "b", "a", "hi", false, none, none, false, 5⟩]) :=
  ⟨by decide, c7_mark_read_frame "a" "b" (by decide)
    [⟨"m1", "b", "a", "hi", false, none, none, false, 5⟩]⟩

/-! ### Team roster assembly (`loadTeamMembers`, DashboardPage.tsx:137-158
and EmployeesPage) -/

/-- A user as returned by the auth service's `listUsers`. -/
structure AuthUser where
  id : String
  email : Option String
  meta_name : Option String
  created_at : String
deriving DecidableEq, Repr

/-- A row of the `user_presence` table (`user_id` is the primary key;
`last_seen` is a timestamptz rendered as a string). -/
structure PresenceRow where
  user_id : String
  is_online : Bool
  last_seen : String
deriving DecidableEq, Repr

/-- The `UserPresence` view-model entry assembled per user. -/
structure TeamMember where
  user_id : String
  is_online : Bool
  last_seen : String
  email : String
  name : String
deriving DecidableEq, Repr

/-- JavaScript `x || d` for an optional string `x`: both `undefined` and the
empty string are falsy. -/
def jsStrOr (x : Option String) (d : String) : String :=
  match x with
  | none => d
  | some s => if s = "" then d else s

/-- One roster entry (the body of the `users.users.map` in `loadTeamMembers`):
`presence = presenceData?.find(p => p.user_id === user.id)`, then
`is_online: presence?.is_online || false`,
`last_seen: presence?.last_seen || user.created_at`,
`email: user.email || ''`,
`name: user.user_metadata?.name || user.email?.split('@')[0] || 'User'`. -/
def rosterEntry (presenceData : List PresenceRow) (user : AuthUser) : TeamMember :=
  let presence := presenceData.find? (fun p => p.user_id == user.id)
  { user_id := user.id
    is_online := (presence.map (fun p => p.is_online)).getD false
    last_seen := jsStrOr (presence.map (fun p => p.last_seen)) user.created_at
    email := user.email.getD ""
    name := jsStrOr user.meta_name
      (jsStrOr (user.email.map (fun e => (e.splitOn "@").headD "")) "User") }

/-- `loadTeamMembers`: one assembled entry per listed user, in order. -/
def loadTeamMembers (users : List AuthUser) (presenceData : List PresenceRow) :
    List TeamMember :=
  users.map (rosterEntry presenceData)

/-- C8: the roster has one entry per user, in order; a user whose id has a
row in the presence table gets that row's `is_online` and `last_seen`, and a
user with no presence row defaults to offline with `last_seen` equal to the
account-creation timestamp. Hypotheses reflect the table's schema:
`user_id` is the primary key (no duplicate ids) and `last_seen` is a
timestamp, never the empty string. -/
theorem c8_roster (users : List AuthUser) (presenceData : List PresenceRow)
    (hkey : (presenceData.map (fun p => p.user_id)).Nodup)
    (hts : ∀ p ∈ presenceData, p.last_seen ≠ "") :
    List.Forall₂ (fun user entry =>
        entry.user_id = user.id
        ∧ (∀ p ∈ presenceData, p.user_id = user.id →
            entry.is_online = p.is_online ∧ entry.last_seen = p.last_seen)
        ∧ ((∀ p ∈ presenceData, p.user_id ≠ user.id) →
            entry.is_online = false ∧ entry.last_seen = user.created_at))
      users (loadTeamMembers users presenceData) := by
  unfold loadTeamMembers
  rw [List.forall₂_map_right_iff, List.forall₂_same]
  intro user _
  refine ⟨rfl, ?_, ?_⟩
  · intro p hp hpid
    cases hfind : presenceData.find? (fun q => q.user_id == user.id) with
    | none =>
      have hnot := List.find?_eq_none.mp hfind p hp
      simp [hpid] at hnot
    | some q =>
      have hqmem := List.mem_of_find?_eq_some hfind
      have hq : q.user_id = user.id := by
        simpa using List.find?_some hfind
      have hpq : p = q :=
        List.inj_on_of_nodup_map hkey hp hqmem (by rw [hpid, hq])
      subst hpq
      constructor
      · simp [rosterEntry, hfind]
      · simp [rosterEntry, hfind, jsStrOr, hts p hp]
  · intro hnone
    have hfind : presenceData.find? (fun q => q.user_id == user.id) = none := by
      apply List.find?_eq_none.mpr
      intro p hp
      simpa using hnone p hp
    simp [rosterEntry, hfind, jsStrOr]

/-- Witness for C8: two users, one with a presence row and one without. -/
theorem c8_roster_witness :
    (([⟨"u1", true, "2025-01-01T10:00:00Z"⟩] : List PresenceRow).map
        (fun p => p.user_id)).Nodup
    ∧ (∀ p ∈ ([⟨"u1", true, "2025-01-01T10:00:00Z"⟩] : List PresenceRow),
        p.last_seen ≠ "")
    ∧ List.Forall₂ (fun (user : AuthUser) (entry : TeamMember) =>
        entry.user_id = user.id
        ∧ (∀ p ∈ ([⟨"u1", true, "2025-01-01T10:00:00Z"⟩] : List PresenceRow),
            p.user_id = user.id →
            entry.is_online = p.is_online ∧ entry.last_seen = p.last_seen)
        ∧ ((∀ p ∈ ([⟨"u1", true, "2025-01-01T10:00:00Z"⟩] : List PresenceRow),
            p.user_id ≠ user.id) →
            entry.is_online = false ∧ entry.last_seen = user.created_at))
      [⟨"u1", some "al@x.io", some "Al", "2024-12-01T00:00:00Z"⟩,
       ⟨"u2", none, none, "2024-12-02T00:00:00Z"⟩]
      (loadTeamMembers
        [⟨"u1", some "al@x.io", some "Al", "2024-12-01T00:00:00Z"⟩,
         ⟨"u2", none, none, "2024-12-02T00:00:00Z"⟩]
        [⟨"u1", true, "2025-01-01T10:00:00Z"⟩]) :=
  ⟨by decide, by decide,
   c8_roster
     [⟨"u1", some "al@x.io", some "Al", "2024-12-01T00:00:00Z"⟩,
      ⟨"u2", none, none, "2024-12-02T00:00:00Z"⟩]
     [⟨"u1", true, "2025-01-01T10:00:00Z"⟩] (by decide) (by decide)⟩

/-! ### Data-fetch error paths (C9) -/

/-- A task row joined with its assigned user, as returned by the Dashboard
`loadTasks` select (`assigned_user:assigned_to(id, email, raw_user_meta_data)`). -/
structure JoinedTask where
  task : Task
  assigned_user_name : Option String
  assigned_user_email : Option String
deriving DecidableEq, Repr

/-- A task enriched with `assigned_to_name` for the view. -/
structure NamedTask where
  task : Task
  assigned_to_name : String
deriving DecidableEq, Repr

/-- The enrichment `loadTasks` applies on success:
`assigned_to_name: task.assigned_user?.raw_user_meta_data?.name ||
task.assigned_user?.email || 'Unassigned'`. -/
def addAssignedName (jt : JoinedTask) : NamedTask :=
  { task := jt.task,
    assigned_to_name :=
      jsStrOr jt.assigned_user_name (jsStrOr jt.assigned_user_email "Unassigned") }

/-- A `calendar_events` row (CalendarPage). -/
structure CalendarEvent where
  id : String
  user_id : String
  title : String
  event_type : String
  event_date : String
  meeting_link : Option String
  notes : Option String
deriving DecidableEq, Repr

/-- Outcome of one data-fetch operation: the number of backend calls issued
for it and the resulting view state. -/
structure FetchOutcome (α : Type) where
  fetches : Nat
  state : α
deriving Repr

/-- `loadTasks` (DashboardPage.tsx:115-135) over a single fetch response:
issue one select; on error log and return, leaving the previous `tasks`
state; on success map the name enrichment over the data. -/
def loadTasksOp (resp : Except String (List JoinedTask))
    (prev : List NamedTask) : FetchOutcome (List NamedTask) :=
  match resp with
  | Except.error _ => ⟨1, prev⟩
  | Except.ok data => ⟨1, data.map addAssignedName⟩

/-- `loadEvents` (CalendarPage.tsx:46-58): one select; on error log and
return, leaving the previous `events` state; on success set the data. -/
def loadEventsOp (resp : Except String (List CalendarEvent))
    (prev : List CalendarEvent) : FetchOutcome (List CalendarEvent) :=
  match resp with
  | Except.error _ => ⟨1, prev⟩
  | Except.ok data => ⟨1, data⟩

/-- View state touched by `loadMessages`: the `messages` list shown and the
backend `chat_messages` store (the read-marking update mutates the latter). -/
structure MessagesOutcome where
  view : List ChatMessage
  store : List ChatMessage
deriving DecidableEq, Repr

/-- `loadMessages` (EmployeesPage): one select; on error log and return —
the previous `messages` state stays and the read-marking update is never
issued; on success set the data and mark the thread read in the store. -/
def loadMessagesOp (viewer other : String)
    (resp : Except String (List ChatMessage))
    (prevView store : List ChatMessage) : FetchOutcome MessagesOutcome :=
  match resp with
  | Except.error _ => ⟨1, ⟨prevView, store⟩⟩
  | Except.ok data => ⟨1, ⟨data, markRead viewer other store⟩⟩

/-- C9: each data-fetch operation — loading tasks, events, or messages —
issues exactly one backend call; when that call returns an error the
operation stops there (no retry) and the previously loaded view state is
returned unchanged (for messages, the store is also left untouched: no
read-marking happens on error). -/
theorem c9_error_aborts_unchanged (e : String) (viewer other : String)
    (prevTasks : List NamedTask) (prevEvents : List CalendarEvent)
    (prevView store : List ChatMessage) :
    loadTasksOp (Except.error e) prevTasks = ⟨1, prevTasks⟩
    ∧ loadEventsOp (Except.error e) prevEvents = ⟨1, prevEvents⟩
    ∧ loadMessagesOp viewer other (Except.error e) prevView store
        = ⟨1, ⟨prevView, store⟩⟩ :=
  ⟨rfl, rfl, rfl⟩

/-- C10: on a due-date string that does not parse (a NaN date), both the
`<` comparison and the `getTime()` equality against today are false, so the
categorization totally evaluates to `next` — never `overdue` or `today`. -/
theorem c10_invalid_date_is_next (t : Int) :
    getCategoryFromDate none t = Category.next
    ∧ jsDateLt none (some t) = false
    ∧ jsDateEqTime none (some t) = false
    ∧ getCategoryFromDate none t ≠ Category.overdue
    ∧ getCategoryFromDate none t ≠ Category.today := by
  refine ⟨rfl, rfl, rfl, ?_, ?_⟩ <;> intro h <;> cases h

end TaskManager
